import Mathlib

/-!
Verification of the post-processing image pipeline (postprocessing kernels,
auto-exposure, denoiser, bloom, lens flare, output writer) of the
Ultimate-Realism-Renderer repository.

Modelling conventions:
* float values are modelled exactly by rationals wherever the code only
  compares, adds, multiplies and divides them (every IEEE float is a rational,
  and float comparison agrees with rational comparison on float values);
* code that calls transcendental library functions (expf, sinf, cosf, powf,
  log10f, sqrtf, atan2f) is modelled over the reals with the corresponding
  real functions;
* per-thread GPU kernels are modelled as pure functions of the values the
  thread reads, plus explicit access-coordinate traces and shared-memory
  operation traces where a claim is about accesses or barriers.
-/

/-! ## Basic vector types (linear_math.h) -/

/-- Two-component vector, generic in the scalar type. -/

structure Vec2 (α : Type) where
  x : α
  y : α
  deriving DecidableEq, Repr

/-- Three-component vector, generic in the scalar type. -/

structure Vec3 (α : Type) where
  x : α
  y : α
  z : α
  deriving DecidableEq, Repr

/-- `Float3` with exact rational components (for the purely arithmetical kernels). -/

abbrev Float3 : Type := Vec3 ℚ

/-- Integer pixel coordinate / buffer size, as in the source `Int2`. -/

structure Int2 where
  x : ℤ
  y : ℤ
  deriving DecidableEq, Repr

/-! ## The 9-element array state of the median filter -/

/-- An array of nine values, mirroring the `LumaIdxPair[9]` array of `MedianFilter`;
positions `v0 .. v8` are indices `0 .. 8`. -/

structure Nine (α : Type) where
  v0 : α
  v1 : α
  v2 : α
  v3 : α
  v4 : α
  v5 : α
  v6 : α
  v7 : α
  v8 : α
  deriving DecidableEq, Repr

/-- The nine entries as a list, in index order. -/

def Nine.toList {α : Type} (n : Nine α) : List α :=
  [n.v0, n.v1, n.v2, n.v3, n.v4, n.v5, n.v6, n.v7, n.v8]

/-- Apply a function to each of the nine entries. -/

def Nine.map {α β : Type} (f : α → β) (n : Nine α) : Nine β :=
  ⟨f n.v0, f n.v1, f n.v2, f n.v3, f n.v4, f n.v5, f n.v6, f n.v7, f n.v8⟩

/-! ## The sort9 median-selection network (`sort9` and helpers in the source) -/

/-- A luminance value paired with the neighbourhood index it came from. -/

structure LumaIdxPair where
  luma : ℚ
  idx : ℕ
  deriving DecidableEq, Repr

/-- Source `min` on pairs: `(a.luma < b.luma) ? a : b`. -/

def LumaIdxPair.min (a b : LumaIdxPair) : LumaIdxPair :=
  if a.luma < b.luma then a else b

/-- Source `max` on pairs: `(a.luma > b.luma) ? a : b`. -/

def LumaIdxPair.max (a b : LumaIdxPair) : LumaIdxPair :=
  if b.luma < a.luma then a else b

/-- Source `min3`: `min(min(v1, v2), v3)`. -/

def min3 (a b c : LumaIdxPair) : LumaIdxPair :=
  LumaIdxPair.min (LumaIdxPair.min a b) c

/-- Source `max3`: `max(max(v1, v2), v3)`. -/

def max3 (a b c : LumaIdxPair) : LumaIdxPair :=
  LumaIdxPair.max (LumaIdxPair.max a b) c

/-- Source `sort2`: swap the two values when `a.luma > b.luma`; returns the
pair in (first, second) order after the conditional swap. -/

def sort2 (a b : LumaIdxPair) : LumaIdxPair × LumaIdxPair :=
  if b.luma < a.luma then (b, a) else (a, b)

/-- Source `sort3`: `sort2(v2,v3); sort2(v1,v2); sort2(v2,v3)`, returning the
final (v1, v2, v3). -/

def sort3 (v1 v2 v3 : LumaIdxPair) : LumaIdxPair × LumaIdxPair × LumaIdxPair :=
  let p := sort2 v2 v3
  let q := sort2 v1 p.1
  let r := sort2 q.2 p.2
  (q.1, r.1, r.2)

/-- Source `sort9`: three 3-element sorts on the rows, the two `max3`/`min3`
cross-merges into positions 6 and 2, then the two refinement 3-element sorts
`sort3(p1,p4,p7)` and `sort3(p2,p4,p6)`.  The result is the final state of the
whole 9-element array. -/

def sort9 (n : Nine LumaIdxPair) : Nine LumaIdxPair :=
  let t1 := sort3 n.v0 n.v1 n.v2
  let t2 := sort3 n.v3 n.v4 n.v5
  let t3 := sort3 n.v6 n.v7 n.v8
  let m6 := max3 t1.1 t2.1 t3.1
  let m2 := min3 t1.2.2 t2.2.2 t3.2.2
  let t4 := sort3 t1.2.1 t2.2.1 t3.2.1
  let t5 := sort3 m2 t4.2.1 m6
  ⟨t1.1, t4.1, t5.1, t2.1, t5.2.1, t2.2.2, t5.2.2, t4.2.2, t3.2.2⟩

/-! ### Boolean mirror of the network

The network only moves values around by comparisons on `luma`, so applying a
monotone (or the strict) threshold indicator to every luminance commutes with
the network, with pairwise `min`/`max` becoming `&&`/`||`.  On `Bool` the
network is finite and can be checked exhaustively. -/

/-- Boolean image of `sort2`: (min, max) = (and, or). -/

def bSort2 (a b : Bool) : Bool × Bool := (a && b, a || b)

/-- Boolean image of `sort3`. -/

def bSort3 (v1 v2 v3 : Bool) : Bool × Bool × Bool :=
  let p := bSort2 v2 v3
  let q := bSort2 v1 p.1
  let r := bSort2 q.2 p.2
  (q.1, r.1, r.2)

/-- Boolean image of `min3`. -/

def bMin3 (a b c : Bool) : Bool := (a && b) && c

/-- Boolean image of `max3`. -/

def bMax3 (a b c : Bool) : Bool := (a || b) || c

/-- Boolean image of `sort9`. -/

def bSort9 (n : Nine Bool) : Nine Bool :=
  let t1 := bSort3 n.v0 n.v1 n.v2
  let t2 := bSort3 n.v3 n.v4 n.v5
  let t3 := bSort3 n.v6 n.v7 n.v8
  let m6 := bMax3 t1.1 t2.1 t3.1
  let m2 := bMin3 t1.2.2 t2.2.2 t3.2.2
  let t4 := bSort3 t1.2.1 t2.2.1 t3.2.1
  let t5 := bSort3 m2 t4.2.1 m6
  ⟨t1.1, t4.1, t5.1, t2.1, t5.2.1, t2.2.2, t5.2.2, t4.2.2, t3.2.2⟩

/-- Number of `true` entries among the nine. -/

def countTrue (b : Nine Bool) : ℕ := b.toList.countP id

/-- Weak threshold indicator on a pair: is the luminance at least `t`. -/

def thLe (t : ℚ) (q : LumaIdxPair) : Bool := decide (t ≤ q.luma)

/-- Strict threshold indicator on a pair: is the luminance above `t`. -/

def thLt (t : ℚ) (q : LumaIdxPair) : Bool := decide (t < q.luma)

/-! ## MedianFilter: per-pixel candidate selection (lines 284-419) -/

/-- The per-pixel shared-tile record of `MedianFilter` (`struct LDS`):
color, depth, normal and material mask of one pixel. -/

structure LDS where
  color : Float3
  depth : ℚ
  normal : Float3
  mask : ℕ
  deriving DecidableEq, Repr

/-- The nine luma/index pairs built by the `kernelDim x kernelDim` loops of
`MedianFilter`: entry `j + i*3` reads the shared tile at linear index
`(threadIdx.x + j) + (threadIdx.y + i) * ldsBlockdim` (`ldsBlockdim = 10`)
and stores the neighbourhood-local index `j + i*3`.  The luminance extractor
`GetLuma` lives in `common.cuh`, which is not among the sources, so it is a
parameter; nothing below depends on its concrete definition. -/

def medianPairs (getLuma : Float3 → ℚ) (tile : ℕ → LDS) (tx ty : ℕ) : Nine LumaIdxPair :=
  let pair := fun i j =>
    LumaIdxPair.mk (getLuma (tile (tx + j + (ty + i) * 10)).color) (j + i * 3)
  ⟨pair 0 0, pair 0 1, pair 0 2, pair 1 0, pair 1 1, pair 1 2, pair 2 0, pair 2 1, pair 2 2⟩

/-- Lines 377-386 of the median filter: sort the neighbourhood pairs with
`sort9`, take `medianColorIdx = neighbourLumaIdx[4].idx`, and read the
candidate sample directly at `sharedBuffer[medianColorIdx]`. -/

def medianCandidate (getLuma : Float3 → ℚ) (tile : ℕ → LDS) (tx ty : ℕ) : LDS :=
  tile ((sort9 (medianPairs getLuma tile tx ty)).v4.idx)

/-- The sample of the 3x3 neighbourhood of thread `(tx, ty)` that a stored
neighbourhood index `k = j + i*3` refers to: the tile entry at column
`tx + (k % 3)` and row `ty + (k / 3)` of the 10x10 shared tile. -/

def neighborSample (tile : ℕ → LDS) (tx ty k : ℕ) : LDS :=
  tile ((tx + k % 3) + (ty + k / 3) * 10)

/-- Concrete tile: every entry is the neutral sample except linear index 4
(in the tile's top halo row), which holds a luminance-1000 outlier. -/

def baseSample : LDS := ⟨⟨1, 1, 1⟩, 0, ⟨0, 0, 1⟩, 0⟩

/-- The bright outlier sample stored at tile linear index 4. -/

def outlierSample : LDS := ⟨⟨1000, 1000, 1000⟩, 0, ⟨0, 0, 1⟩, 0⟩

/-- The counterexample tile for the median filter indexing bug. -/

def tileCE : ℕ → LDS := fun k => if k = 4 then outlierSample else baseSample

/-! ## MedianFilter: final blend (lines 389-408) -/

/-- Modelled from the spec: `lerp3f` (in `common.cuh`, which is not among the
sources) is standard componentwise linear interpolation `a + (b - a) * t`. -/

def lerp3f (a b : Float3) (t : ℚ) : Float3 :=
  ⟨a.x + (b.x - a.x) * t, a.y + (b.y - a.y) * t, a.z + (b.z - a.z) * t⟩

/-- Line 408 of the median filter:
`finalColor = lerp3f(medianColor, lerp3f(colorValue, medianColor, weight), 0.5f)`. -/

def medianBlend (colorValue medianColor : Float3) (weight : ℚ) : Float3 :=
  lerp3f medianColor (lerp3f colorValue medianColor weight) (1/2)

/-! ## Histogram and AutoExposure (lines 104-215) -/

noncomputable section

/-- `BinToLum` (line 121): `exp2f(((float)i / (63 * 0.99999) - 0.75) / 0.1)`. -/

def BinToLum (i : ℕ) : ℝ := (2 : ℝ) ^ ((((i : ℝ) / (63 * 0.99999)) - 0.75) / 0.1)

/-- Scan state of `AutoExposure`: the weighted luminance sum `lumiSum`, the
accepted mass `lumiSumArea`, and the cumulative histogram mass
`accuHistArea`. -/

structure AEState where
  lumiSum : ℝ
  lumiSumArea : ℝ
  accuHistArea : ℝ

/-- Dark histogram cut threshold (line 126). -/

def darkThreshold : ℝ := 0.4

/-- Bright histogram cut threshold (line 127). -/

def brightThreshold : ℝ := 0.9

/-- First loop of `AutoExposure` (lines 140-163), with `64 - i` as structural
fuel: accumulate normalized histogram mass; at the first bucket where it
exceeds the dark threshold, accept only the excess of the crossing bucket and
stop, reporting the bucket index. -/

def aeLoop1 (histogram : ℕ → ℕ) (area : ℝ) : ℕ → ℕ → AEState → AEState × Option ℕ
  | 0, _, s => (s, none)
  | fuel + 1, i, s =>
    let fHist := (histogram i : ℝ) / area
    let lum := BinToLum i
    let accu := s.accuHistArea + fHist
    let dark := accu - darkThreshold
    if 0 < dark then
      (⟨s.lumiSum + dark * lum, s.lumiSumArea + dark, accu⟩, some i)
    else
      aeLoop1 histogram area fuel (i + 1) ⟨s.lumiSum, s.lumiSumArea, accu⟩

/-- Second loop of `AutoExposure` (lines 166-189): continue from the dark-cut
bucket (the crossing bucket is re-read), accepting full buckets until the
cumulative mass exceeds the bright threshold, where only the missing mass
`brightThreshold - (accuHistArea - fHist)` is accepted; reports the bright
luminance. -/

def aeLoop2 (histogram : ℕ → ℕ) (area : ℝ) : ℕ → ℕ → AEState → AEState × Option ℝ
  | 0, _, s => (s, none)
  | fuel + 1, i, s =>
    let fHist := (histogram i : ℝ) / area
    let lum := BinToLum i
    let accu := s.accuHistArea + fHist
    let bright := accu - brightThreshold
    if 0 < bright then
      let cut := brightThreshold - (accu - fHist)
      (⟨s.lumiSum + cut * lum, s.lumiSumArea + cut, accu⟩, some lum)
    else
      aeLoop2 histogram area fuel (i + 1)
        ⟨s.lumiSum + fHist * lum, s.lumiSumArea + fHist, accu⟩

/-- Both scans of `AutoExposure` chained as in the source: the second loop
starts at the bucket where the first broke (when it broke), with the state
the first loop left. -/

def aeScan (histogram : ℕ → ℕ) (area : ℝ) : AEState × Option ℕ × Option ℝ :=
  let r1 := aeLoop1 histogram area 64 0 ⟨0, 0, 0⟩
  match r1.2 with
  | none => (r1.1, none, none)
  | some i =>
    let r2 := aeLoop2 histogram area (64 - i) i r1.1
    (r2.1, some i, r2.2)

/-- `clampf` (in `common.cuh`, which is not among the sources).  Modelled from
the spec: "Both are clamped to [0.1, 10.0]" — the standard clamp
`min(max(x, lo), hi)`. -/

def clampf (x lo hi : ℝ) : ℝ := Min.min (Max.max x lo) hi

/-- The eye-adaptation smoothing step (lines 202-203):
`lum + (target - lum) * (1.0 - expf(-deltaTime * 0.001))`. -/

def eyeAdapt (prev target deltaTime : ℝ) : ℝ :=
  prev + (target - prev) * (1 - Real.exp (-deltaTime * 0.001))

/-- Exposure state persisted across frames: `exposure[0] = EV`,
`exposure[1]` the smoothed average luminance, `exposure[2]` the smoothed
bright luminance.  `RayTracer::init` (init.cu lines 146-147) starts it as
`{0, 1, 1, 0}`. -/

structure ExposureState where
  ev : ℝ
  lum : ℝ
  lumBright : ℝ

/-- The `AutoExposure` kernel (lines 123-215) as a function of the histogram,
the pixel area, the frame delta-time and the previous exposure state. -/

def AutoExposure (histogram : ℕ → ℕ) (area deltaTime : ℝ) (prev : ExposureState) :
    ExposureState :=
  let scan := aeScan histogram area
  let brightLum := (scan.2.2).getD 0
  let aveLum := scan.1.lumiSum / scan.1.lumiSumArea
  let aveLumC := clampf aveLum 0.1 10.0
  let lumTemp := eyeAdapt prev.lum aveLumC deltaTime
  let lumBrightTemp := eyeAdapt prev.lumBright brightLum deltaTime
  let ec := 1.03 - 2.0 / (Real.logb 10 (lumTemp + 1.0) + 2.0)
  let ev := 7.0 * ec / lumTemp
  ⟨ev, lumTemp, lumBrightTemp⟩

end

/-- All-dark histogram: every pixel lands in bucket 0 (area 1). -/

def histAllDark : ℕ → ℕ := fun i => if i = 0 then 1 else 0

/-! ## Per-thread buffer access traces (Histogram2, DownScale4) -/

/-- Is an integer pixel coordinate inside a buffer of the given size. -/

def inBounds (c size : Int2) : Prop :=
  0 ≤ c.x ∧ c.x < size.x ∧ 0 ≤ c.y ∧ c.y < size.y

instance (c size : Int2) : Decidable (inBounds c size) := by
  unfold inBounds
  infer_instance

/-- The `InBuffer` coordinates a `Histogram2` thread reads (lines 104-119):
`idx = blockIdx * blockDim + threadIdx`, and the thread returns before any
access when `idx.x >= size.x || idx.y >= size.y`. -/

def Histogram2Reads (bdim bIdx tIdx : ℕ × ℕ) (size : Int2) : List Int2 :=
  let x : ℤ := ((bIdx.1 * bdim.1 + tIdx.1 : ℕ) : ℤ)
  let y : ℤ := ((bIdx.2 * bdim.2 + tIdx.2 : ℕ) : ℤ)
  if size.x ≤ x ∨ size.y ≤ y then [] else [⟨x, y⟩]

/-- The `InBuffer` coordinate a `DownScale4` thread reads (line 228):
`idx = blockIdx * blockDim + threadIdx`, loaded unconditionally — the kernel
contains no bounds test at all. -/

def DownScale4Reads (bdim bIdx tIdx : ℕ × ℕ) : List Int2 :=
  [⟨((bIdx.1 * bdim.1 + tIdx.1 : ℕ) : ℤ), ((bIdx.2 * bdim.2 + tIdx.2 : ℕ) : ℤ)⟩]

/-! ## Shared-memory barrier placement (MedianFilter, DownScale4, BloomGuassian) -/

/-- One shared-memory-relevant operation of a tile kernel, in program order.
`guarded` marks an operation under thread-dependent control flow (a
conditional, or after a thread-dependent early return), i.e. one that is not
executed by all threads of the block. -/

inductive TileOp
  | store (guarded : Bool)
  | sync (guarded : Bool)
  | readNeighbor (guarded : Bool)
  deriving DecidableEq, Repr

/-- Is the operation a write into the shared tile. -/

def TileOp.isStore : TileOp → Bool
  | .store _ => true
  | _ => false

/-- Is the operation a block barrier executed by all threads of the block. -/

def TileOp.isFullSync : TileOp → Bool
  | .sync g => !g
  | _ => false

/-- Is the operation a read of a tile entry another thread may have written. -/

def TileOp.isRead : TileOp → Bool
  | .readNeighbor _ => true
  | _ => false

/-- Left-to-right scan: `pending` records whether some tile store has not yet
been followed by a full block barrier; a cross-thread tile read while a store
is pending means the read is not separated from that write by a barrier. -/

def syncSeparatedGo : Bool → List TileOp → Bool
  | _, [] => true
  | pending, op :: rest =>
    if op.isRead && pending then false
    else syncSeparatedGo
      (if op.isStore then true else if op.isFullSync then false else pending) rest

/-- Every cross-thread tile read is separated from every preceding tile store
by a block barrier executed by all threads. -/

def syncSeparated (ops : List TileOp) : Bool := syncSeparatedGo false ops

/-- Shared-tile operations of `MedianFilter` (lines 303-386): two halo loads
into the tile (the second under `id + 64 < 100`), a `__syncthreads()` reached
by every thread, then (after the bounds and depth early-outs) the centre
read, the nine neighbourhood reads, and the median-candidate fetch. -/

def MedianFilterTileOps : List TileOp :=
  [.store false, .store true, .sync false,
   .readNeighbor true, .readNeighbor true, .readNeighbor true]

/-- Shared-tile operations of `DownScale4` (lines 221-249): an unconditional
store, then cross-thread reads (which also store) under the `% 2` predicate,
then cross-thread reads under the `% 4` predicate — no barrier anywhere. -/

def DownScale4TileOps : List TileOp :=
  [.store false, .readNeighbor true, .store true, .readNeighbor true]

/-- Shared-tile operations of `BloomGuassian` (lines 427-460): an
unconditional store, then — after the margin threads have already returned —
a `__syncthreads()` executed only by the interior threads, then the 5x5
neighbourhood reads. -/

def BloomGuassianTileOps : List TileOp :=
  [.store false, .sync true, .readNeighbor true]

/-! ## CopyToOutput (lines 694-716) -/

/-- `clamp3f` (in `common.cuh`, absent from the sources).  Modelled from the
spec: componentwise clamp `min(max(v, lo), hi)`. -/

def clamp3f (v lo hi : Float3) : Float3 :=
  ⟨Min.min (Max.max v.x lo.x) hi.x,
   Min.min (Max.max v.y lo.y) hi.y,
   Min.min (Max.max v.z lo.z) hi.z⟩

/-- The C float-to-`unsigned char` conversion used by `make_uchar4`:
truncation toward zero; every operand in `CopyToOutput` is non-negative, so
it is the floor. -/

def floatToByte (v : ℚ) : ℕ := (Int.floor v).toNat

/-- The bytes `CopyToOutput` writes for one in-bounds pixel: clamp the color
to [0,1], scale by 255, add 0.5, convert each channel to a byte — and pass
the float literal `1.0f` as the alpha argument of `make_uchar4`. -/

def CopyToOutputPixel (c : Float3) : ℕ × ℕ × ℕ × ℕ :=
  let s := clamp3f c ⟨0, 0, 0⟩ ⟨1, 1, 1⟩
  (floatToByte (s.x * 255 + 0.5), floatToByte (s.y * 255 + 0.5),
   floatToByte (s.z * 255 + 0.5), floatToByte 1)

/-! ## LensFlare (lines 483-548) -/

noncomputable section

/-- Componentwise addition on `Float2` (linear_math.h). -/

def Vec2.add (p q : Vec2 ℝ) : Vec2 ℝ := ⟨p.x + q.x, p.y + q.y⟩

/-- Componentwise subtraction on `Float2`. -/

def Vec2.sub (p q : Vec2 ℝ) : Vec2 ℝ := ⟨p.x - q.x, p.y - q.y⟩

/-- `Float2 * float` scalar multiplication. -/

def Vec2.smul (p : Vec2 ℝ) (s : ℝ) : Vec2 ℝ := ⟨p.x * s, p.y * s⟩

/-- `Float2 / float` scalar division. -/

def Vec2.divs (p : Vec2 ℝ) (s : ℝ) : Vec2 ℝ := ⟨p.x / s, p.y / s⟩

/-- `Float2 + float` broadcast addition. -/

def Vec2.adds (p : Vec2 ℝ) (s : ℝ) : Vec2 ℝ := ⟨p.x + s, p.y + s⟩

/-- `Float2::length()`: the Euclidean norm `sqrtf(x*x + y*y)`. -/

def Vec2.length (p : Vec2 ℝ) : ℝ := Real.sqrt (p.x ^ 2 + p.y ^ 2)

/-- Componentwise addition on `Float3`. -/

def Vec3.add3 (a b : Vec3 ℝ) : Vec3 ℝ := ⟨a.x + b.x, a.y + b.y, a.z + b.z⟩

/-- `float * Float3` scalar multiplication. -/

def Vec3.smul3 (a : Vec3 ℝ) (s : ℝ) : Vec3 ℝ := ⟨a.x * s, a.y * s, a.z * s⟩

/-- `Float3 + float` broadcast addition. -/

def Vec3.adds3 (a : Vec3 ℝ) (s : ℝ) : Vec3 ℝ := ⟨a.x + s, a.y + s, a.z + s⟩

/-- `Float3 - float` broadcast subtraction. -/

def Vec3.subs3 (a : Vec3 ℝ) (s : ℝ) : Vec3 ℝ := ⟨a.x - s, a.y - s, a.z - s⟩

/-- `cos3f`: componentwise cosine. -/

def cos3f (a : Vec3 ℝ) : Vec3 ℝ := ⟨Real.cos a.x, Real.cos a.y, Real.cos a.z⟩

/-- `fract` (common.cuh): the fractional part `x - floor(x)`. -/

def fract (x : ℝ) : ℝ := x - (⌊x⌋ : ℤ)

/-- `LensFlareRand` (lines 483-486): `fract(sinf(w) * 1000.0f)`. -/

def LensFlareRand (w : ℝ) : ℝ := fract (Real.sin w * 1000)

/-- `smoothstep1f` (common.cuh): the standard Hermite smoothstep
`t = clamp((x-e0)/(e1-e0), 0, 1); t*t*(3-2t)`. -/

def smoothstep1f (e0 e1 x : ℝ) : ℝ :=
  let t := clampf ((x - e0) / (e1 - e0)) 0 1
  t * t * (3 - 2 * t)

/-- `atan2f(y, x)` with the C argument convention. -/

def atan2f (y x : ℝ) : ℝ :=
  if 0 < x then Real.arctan (y / x)
  else if x < 0 then
    (if 0 ≤ y then Real.arctan (y / x) + Real.pi else Real.arctan (y / x) - Real.pi)
  else (if 0 < y then Real.pi / 2 else if y < 0 then -(Real.pi / 2) else 0)

/-- `LensFlareRegShape` (lines 488-494): hexagon distance field via the
angular fold `floorf(0.5 + a/b) * b - a` with `b = 2 pi / N`. -/

def LensFlareRegShape (p : Vec2 ℝ) (n : ℕ) : ℝ :=
  let a := atan2f p.x p.y + 0.2
  let b := 2 * Real.pi / (n : ℝ)
  smoothstep1f 0.5 0.51 (Real.cos ((⌊0.5 + a / b⌋ : ℤ) * b - a) * p.length)

/-- Big-circle coefficient of `LensFlareCircle` (line 500):
`max(0.01 - pow(length(p + mouse*dist), size*1.4), 0) * 30`. -/

def lfC (p : Vec2 ℝ) (size dist : ℝ) (mouse : Vec2 ℝ) : ℝ :=
  Max.max (0.01 - (p.add (mouse.smul dist)).length ^ (size * 1.4)) 0 * 30

/-- Ring coefficient of `LensFlareCircle` (line 501), where
`l = length(p + mouse*(dist*4)) + size/2`:
`max(0.001 - pow(l - 0.3, 1/40) + sin(l*30), 0) * 3`. -/

def lfC1 (p : Vec2 ℝ) (size dist : ℝ) (mouse : Vec2 ℝ) : ℝ :=
  let l := (p.add (mouse.smul (dist * 4))).length + size / 2
  Max.max (0.001 - (l - 0.3) ^ ((1 : ℝ) / 40) + Real.sin (l * 30)) 0 * 3

/-- Dot coefficient of `LensFlareCircle` (line 502):
`max(0.04 / pow(length(p - mouse*dist/2 + 0.09) * 1.0, 1.0), 0) / 20`. -/

def lfC2 (p : Vec2 ℝ) (dist : ℝ) (mouse : Vec2 ℝ) : ℝ :=
  Max.max (0.04 / (((p.sub ((mouse.smul dist).divs 2)).adds 0.09).length * 1) ^ (1 : ℝ)) 0 / 20

/-- Hexagon coefficient of `LensFlareCircle` (line 503):
`max(0.01 - pow(RegShape(p*5 + mouse*dist*5 + 0.9, 6), 1), 0) * 6`. -/

def lfS (p : Vec2 ℝ) (dist : ℝ) (mouse : Vec2 ℝ) : ℝ :=
  Max.max (0.01 - (LensFlareRegShape (((p.smul 5).add (mouse.smul (dist * 5))).adds 0.9) 6)
    ^ (1 : ℝ)) 0 * 6

/-- Flare tint (line 505): `cos3f(Float3(0.44,0.24,0.2)*8 + dist*4)*0.5 + 0.5`. -/

def lfColor (dist : ℝ) : Vec3 ℝ :=
  ((cos3f ((Vec3.smul3 ⟨0.44, 0.24, 0.2⟩ 8).adds3 (dist * 4))).smul3 0.5).adds3 0.5

/-- `LensFlareCircle` (lines 496-513): the four elements scale the tint and
are summed, then the constant 0.01 is subtracted from every channel. -/

def LensFlareCircle (p : Vec2 ℝ) (size dist : ℝ) (mouse : Vec2 ℝ) : Vec3 ℝ :=
  let c := lfC p size dist mouse
  let c1 := lfC1 p size dist mouse
  let c2 := lfC2 p dist mouse
  let s := lfS p dist mouse
  let color := lfColor dist
  ((((color.smul3 c).add3 (color.smul3 c1)).add3 (color.smul3 c2)).add3
    (color.smul3 s)).subs3 0.01

/-- First sun-glow term (line 544):
`max(0.1 / max(powf(len*10, 5), 0.0001), 0) * abs(sinf(angle*5 + cosf(angle*9))) / 20`. -/
def lfGlow1 (len angle : ℝ) : ℝ :=
  Max.max (0.1 / Max.max ((len * 10) ^ (5 : ℝ)) 0.0001) 0 *
    |Real.sin (angle * 5 + Real.cos (angle * 9))| / 20

/-- Second sun-glow term (line 545):
`max(0.1 / powf(len*10, 1/20), 0) + abs(sinf(angle*3 + cosf(angle*9)))/16 * abs(sinf(angle*9))`. -/
def lfGlow2 (len angle : ℝ) : ℝ :=
  Max.max (0.1 / (len * 10) ^ ((1 : ℝ) / 20)) 0 +
    |Real.sin (angle * 3 + Real.cos (angle * 9))| / 16 * |Real.sin (angle * 9)|

/-- The per-pixel body of the `LensFlare` kernel (lines 515-548) after the
bounds guard, as a function of the sun position, the pixel's centered uv and
the color read from the buffer: two `LensFlareCircle` composites with the
pseudo-random size/offset parameters of the source, then the two
angularly-modulated sun-glow terms, broadcast-added per channel. -/
def LensFlarePixel (sunPos uv : Vec2 ℝ) (inColor : Vec3 ℝ) : Vec3 ℝ :=
  let vec := uv.sub sunPos
  let len := vec.length
  let c0 := LensFlareCircle uv ((LensFlareRand (0 * 2000) * 1.8) ^ (2 : ℝ) + 1.41)
    (LensFlareRand (0 * 20) * 3 + 0.2 - 0.5) sunPos
  let c1 := LensFlareCircle uv ((LensFlareRand (1 * 2000) * 1.8) ^ (2 : ℝ) + 1.41)
    (LensFlareRand (1 * 20) * 3 + 0.2 - 0.5) sunPos
  let angle := atan2f vec.y vec.x
  (((inColor.add3 c0).add3 c1).adds3 (lfGlow1 len angle)).adds3 (lfGlow2 len angle)

end

/-- On Boolean inputs position 4 of the network output is `true` exactly when
at least five of the nine inputs are `true`: the network computes the median
on every 0/1 input (checked exhaustively over all 512 inputs). -/

theorem bSort9_v4_eq : ∀ b0 b1 b2 b3 b4 b5 b6 b7 b8 : Bool,
    (bSort9 ⟨b0, b1, b2, b3, b4, b5, b6, b7, b8⟩).v4 =
      decide (5 ≤ countTrue ⟨b0, b1, b2, b3, b4, b5, b6, b7, b8⟩) := by
  decide

/-! ### Threshold indicators commute with the network -/

/-- The luminance of the source pair `min` is the smaller luminance. -/

theorem luma_min (a b : LumaIdxPair) :
    (LumaIdxPair.min a b).luma = Min.min a.luma b.luma := by
  unfold LumaIdxPair.min
  split_ifs with h
  · exact (min_eq_left h.le).symm
  · exact (min_eq_right (not_lt.1 h)).symm

/-- The luminance of the source pair `max` is the larger luminance. -/

theorem luma_max (a b : LumaIdxPair) :
    (LumaIdxPair.max a b).luma = Max.max a.luma b.luma := by
  unfold LumaIdxPair.max
  split_ifs with h
  · exact (max_eq_left h.le).symm
  · exact (max_eq_right (not_lt.1 h)).symm

/-- After `sort2` the first slot holds the smaller luminance. -/

theorem luma_sort2_fst (a b : LumaIdxPair) :
    (sort2 a b).1.luma = Min.min a.luma b.luma := by
  unfold sort2
  split_ifs with h
  · exact (min_eq_right h.le).symm
  · exact (min_eq_left (not_lt.1 h)).symm

/-- After `sort2` the second slot holds the larger luminance. -/

theorem luma_sort2_snd (a b : LumaIdxPair) :
    (sort2 a b).2.luma = Max.max a.luma b.luma := by
  unfold sort2
  split_ifs with h
  · exact (max_eq_left h.le).symm
  · exact (max_eq_right (not_lt.1 h)).symm

theorem thLe_min (t : ℚ) (a b : LumaIdxPair) :
    thLe t (LumaIdxPair.min a b) = (thLe t a && thLe t b) := by
  simp only [thLe, luma_min, le_min_iff, Bool.decide_and]

theorem thLe_max (t : ℚ) (a b : LumaIdxPair) :
    thLe t (LumaIdxPair.max a b) = (thLe t a || thLe t b) := by
  simp only [thLe, luma_max, le_max_iff, Bool.decide_or]

theorem thLe_sort2_fst (t : ℚ) (a b : LumaIdxPair) :
    thLe t (sort2 a b).1 = (thLe t a && thLe t b) := by
  simp only [thLe, luma_sort2_fst, le_min_iff, Bool.decide_and]

theorem thLe_sort2_snd (t : ℚ) (a b : LumaIdxPair) :
    thLe t (sort2 a b).2 = (thLe t a || thLe t b) := by
  simp only [thLe, luma_sort2_snd, le_max_iff, Bool.decide_or]

theorem thLt_min (t : ℚ) (a b : LumaIdxPair) :
    thLt t (LumaIdxPair.min a b) = (thLt t a && thLt t b) := by
  simp only [thLt, luma_min, lt_min_iff, Bool.decide_and]

theorem thLt_max (t : ℚ) (a b : LumaIdxPair) :
    thLt t (LumaIdxPair.max a b) = (thLt t a || thLt t b) := by
  simp only [thLt, luma_max, lt_max_iff, Bool.decide_or]

theorem thLt_sort2_fst (t : ℚ) (a b : LumaIdxPair) :
    thLt t (sort2 a b).1 = (thLt t a && thLt t b) := by
  simp only [thLt, luma_sort2_fst, lt_min_iff, Bool.decide_and]

theorem thLt_sort2_snd (t : ℚ) (a b : LumaIdxPair) :
    thLt t (sort2 a b).2 = (thLt t a || thLt t b) := by
  simp only [thLt, luma_sort2_snd, lt_max_iff, Bool.decide_or]

theorem thLe_sort3_fst (t : ℚ) (a b c : LumaIdxPair) :
    thLe t (sort3 a b c).1 = (bSort3 (thLe t a) (thLe t b) (thLe t c)).1 := by
  simp only [sort3, bSort3, bSort2, thLe_sort2_fst, thLe_sort2_snd]

theorem thLe_sort3_snd (t : ℚ) (a b c : LumaIdxPair) :
    thLe t (sort3 a b c).2.1 = (bSort3 (thLe t a) (thLe t b) (thLe t c)).2.1 := by
  simp only [sort3, bSort3, bSort2, thLe_sort2_fst, thLe_sort2_snd]

theorem thLe_sort3_thd (t : ℚ) (a b c : LumaIdxPair) :
    thLe t (sort3 a b c).2.2 = (bSort3 (thLe t a) (thLe t b) (thLe t c)).2.2 := by
  simp only [sort3, bSort3, bSort2, thLe_sort2_fst, thLe_sort2_snd]

theorem thLt_sort3_fst (t : ℚ) (a b c : LumaIdxPair) :
    thLt t (sort3 a b c).1 = (bSort3 (thLt t a) (thLt t b) (thLt t c)).1 := by
  simp only [sort3, bSort3, bSort2, thLt_sort2_fst, thLt_sort2_snd]

theorem thLt_sort3_snd (t : ℚ) (a b c : LumaIdxPair) :
    thLt t (sort3 a b c).2.1 = (bSort3 (thLt t a) (thLt t b) (thLt t c)).2.1 := by
  simp only [sort3, bSort3, bSort2, thLt_sort2_fst, thLt_sort2_snd]

theorem thLt_sort3_thd (t : ℚ) (a b c : LumaIdxPair) :
    thLt t (sort3 a b c).2.2 = (bSort3 (thLt t a) (thLt t b) (thLt t c)).2.2 := by
  simp only [sort3, bSort3, bSort2, thLt_sort2_fst, thLt_sort2_snd]

theorem thLe_min3 (t : ℚ) (a b c : LumaIdxPair) :
    thLe t (min3 a b c) = bMin3 (thLe t a) (thLe t b) (thLe t c) := by
  simp only [min3, bMin3, thLe_min]

theorem thLe_max3 (t : ℚ) (a b c : LumaIdxPair) :
    thLe t (max3 a b c) = bMax3 (thLe t a) (thLe t b) (thLe t c) := by
  simp only [max3, bMax3, thLe_max]

theorem thLt_min3 (t : ℚ) (a b c : LumaIdxPair) :
    thLt t (min3 a b c) = bMin3 (thLt t a) (thLt t b) (thLt t c) := by
  simp only [min3, bMin3, thLt_min]

theorem thLt_max3 (t : ℚ) (a b c : LumaIdxPair) :
    thLt t (max3 a b c) = bMax3 (thLt t a) (thLt t b) (thLt t c) := by
  simp only [max3, bMax3, thLt_max]

/-- The weak threshold indicator commutes with the whole network at position 4. -/

theorem thLe_sort9_v4 (t : ℚ) (n : Nine LumaIdxPair) :
    thLe t (sort9 n).v4 = (bSort9 (n.map (thLe t))).v4 := by
  simp only [sort9, bSort9, Nine.map, thLe_sort3_fst, thLe_sort3_snd, thLe_sort3_thd,
    thLe_min3, thLe_max3]

/-- The strict threshold indicator commutes with the whole network at position 4. -/

theorem thLt_sort9_v4 (t : ℚ) (n : Nine LumaIdxPair) :
    thLt t (sort9 n).v4 = (bSort9 (n.map (thLt t))).v4 := by
  simp only [sort9, bSort9, Nine.map, thLt_sort3_fst, thLt_sort3_snd, thLt_sort3_thd,
    thLt_min3, thLt_max3]

/-! ### Counting bridges and the rank-4 characterisation -/

theorem countTrue_map (g : LumaIdxPair → Bool) (n : Nine LumaIdxPair) :
    countTrue (n.map g) = n.toList.countP g := by
  cases n
  simp [countTrue, Nine.map, Nine.toList, List.countP_cons]

theorem countP_lumaMap (p : ℚ → Bool) (n : Nine LumaIdxPair) :
    (n.toList.map LumaIdxPair.luma).countP p = n.toList.countP (fun q => p q.luma) := by
  rw [List.countP_map]
  rfl

/-- In a sorted list of nine rationals, a value with at least five elements at
or below it and at least five at or above it is exactly the element in
position 4 (the 0-indexed rank-4, i.e. median, element). -/

theorem sorted_rank9 (l : List ℚ) (hs : l.Sorted (fun a b => a ≤ b))
    (hlen : l.length = 9) (o : ℚ)
    (hge : 5 ≤ l.countP (fun v => decide (o ≤ v)))
    (hle : 5 ≤ l.countP (fun v => decide (v ≤ o))) :
    l.getD 4 0 = o := by
  have h4 : 4 < l.length := by omega
  set m := l.get ⟨4, h4⟩ with hm
  have hgetD : l.getD 4 0 = m := by
    rw [List.getD_eq_getElem?_getD, List.getElem?_eq_getElem h4, Option.getD_some, hm,
      List.get_eq_getElem]
  have hdrop : l.drop 4 = m :: l.drop 5 := by
    rw [hm, List.get_eq_getElem]
    exact List.drop_eq_getElem_cons h4
  have hsplit : l.take 4 ++ l.drop 4 = l := List.take_append_drop 4 l
  have hsorted5 : ∀ b ∈ l.drop 5, m ≤ b := by
    have hd : (l.drop 4).Sorted (fun a b => a ≤ b) := List.Pairwise.drop hs
    rw [hdrop] at hd
    exact (List.sorted_cons.1 hd).1
  have htake4 : ∀ a ∈ l.take 4, a ≤ m := by
    intro a ha
    refine hs.rel_of_mem_take_of_mem_drop ha ?_
    rw [hdrop]
    exact List.mem_cons_self _ _
  have hub : m ≤ o := by
    by_contra hgt
    push_neg at hgt
    have hgt' : ¬ (m ≤ o) := not_le.2 hgt
    have hdz : (l.drop 4).countP (fun v => decide (v ≤ o)) = 0 := by
      rw [hdrop, List.countP_cons]
      have h0 : (l.drop 5).countP (fun v => decide (v ≤ o)) = 0 := by
        rw [List.countP_eq_zero]
        intro a ha
        simp only [decide_eq_true_eq]
        intro hao
        exact absurd ((hsorted5 a ha).trans hao) hgt'
      rw [h0]
      simp [hgt']
    have htz : (l.take 4).countP (fun v => decide (v ≤ o)) ≤ 4 := by
      have h1 : (l.take 4).countP (fun v => decide (v ≤ o)) ≤ (l.take 4).length :=
        List.countP_le_length _
      have h2 : (l.take 4).length ≤ 4 := by
        rw [List.length_take]
        omega
      omega
    have hc : l.countP (fun v => decide (v ≤ o)) ≤ 4 := by
      rw [← hsplit, List.countP_append]
      omega
    omega
  have hlb : o ≤ m := by
    by_contra hlt
    push_neg at hlt
    have hlt' : ¬ (o ≤ m) := not_le.2 hlt
    have htz : (l.take 4).countP (fun v => decide (o ≤ v)) = 0 := by
      rw [List.countP_eq_zero]
      intro a ha
      simp only [decide_eq_true_eq]
      intro hoa
      exact absurd (hoa.trans (htake4 a ha)) hlt'
    have hdz : (l.drop 4).countP (fun v => decide (o ≤ v)) ≤ 4 := by
      rw [hdrop, List.countP_cons]
      have h1 : (l.drop 5).countP (fun v => decide (o ≤ v)) ≤ (l.drop 5).length :=
        List.countP_le_length _
      have h2 : (l.drop 5).length = 4 := by
        rw [List.length_drop]
        omega
      rw [if_neg (by simp [hlt'])]
      omega
    have hc : l.countP (fun v => decide (o ≤ v)) ≤ 4 := by
      rw [← hsplit, List.countP_append]
      omega
    omega
  rw [hgetD]
  exact le_antisymm hub hlb

/-- Claim C4: for every array of 9 luma-index pairs, after `sort9` runs
(three 3-element sorts, the two `min3`/`max3` cross-merges, then the two
refinement 3-element sorts) the element left at position 4 has the median
luminance, i.e. rank 4 of 9 (0-indexed) in the multiset of the 9 input
luminances. -/

theorem sort9_median_rank (n : Nine LumaIdxPair) :
    (sort9 n).v4.luma =
      (List.insertionSort (fun a b => a ≤ b) (n.toList.map LumaIdxPair.luma)).getD 4 0 := by
  set o := (sort9 n).v4.luma with ho
  set L := n.toList.map LumaIdxPair.luma with hL
  have hperm : (List.insertionSort (fun a b => a ≤ b) L).Perm L := List.perm_insertionSort _ _
  have hsort : (List.insertionSort (fun a b => a ≤ b) L).Sorted (fun a b => a ≤ b) :=
    List.sorted_insertionSort _ _
  have hlenTL : n.toList.length = 9 := by simp [Nine.toList]
  have hlen : (List.insertionSort (fun a b => a ≤ b) L).length = 9 := by
    rw [hperm.length_eq, hL, List.length_map, hlenTL]
  have hmapLe : n.map (thLe o) = ⟨thLe o n.v0, thLe o n.v1, thLe o n.v2, thLe o n.v3,
      thLe o n.v4, thLe o n.v5, thLe o n.v6, thLe o n.v7, thLe o n.v8⟩ := rfl
  have h1 : thLe o (sort9 n).v4 = true := by
    simp [thLe]
  rw [thLe_sort9_v4, hmapLe, bSort9_v4_eq, decide_eq_true_eq] at h1
  rw [← hmapLe, countTrue_map] at h1
  have hge : 5 ≤ L.countP (fun v => decide (o ≤ v)) := by
    rw [hL, countP_lumaMap]
    exact h1
  have hmapLt : n.map (thLt o) = ⟨thLt o n.v0, thLt o n.v1, thLt o n.v2, thLt o n.v3,
      thLt o n.v4, thLt o n.v5, thLt o n.v6, thLt o n.v7, thLt o n.v8⟩ := rfl
  have h2 : thLt o (sort9 n).v4 = false := by
    simp [thLt]
  rw [thLt_sort9_v4, hmapLt, bSort9_v4_eq] at h2
  have h2' : ¬ (5 ≤ countTrue (n.map (thLt o))) := by
    rw [hmapLt]
    exact of_decide_eq_false h2
  rw [countTrue_map] at h2'
  have h3 : n.toList.countP (thLt o) ≤ 4 := by omega
  have h9 := @List.length_eq_countP_add_countP _ (thLt o) n.toList
  have hnot : n.toList.countP (fun a => ¬ thLt o a) =
      n.toList.countP (fun q => decide (q.luma ≤ o)) := by
    apply List.countP_congr
    intro x hx
    simp [thLt, not_lt]
  have h5 : 5 ≤ n.toList.countP (fun q => decide (q.luma ≤ o)) := by
    rw [hnot] at h9
    omega
  have hle : 5 ≤ L.countP (fun v => decide (v ≤ o)) := by
    rw [hL, countP_lumaMap]
    exact h5
  have hge' : 5 ≤ (List.insertionSort (fun a b => a ≤ b) L).countP
      (fun v => decide (o ≤ v)) := by
    rw [List.Perm.countP_eq _ hperm]
    exact hge
  have hle' : 5 ≤ (List.insertionSort (fun a b => a ≤ b) L).countP
      (fun v => decide (v ≤ o)) := by
    rw [List.Perm.countP_eq _ hperm]
    exact hle
  exact (sorted_rank9 _ hsort hlen o hge' hle').symm

/-- Claim C1 evaluated on the failing input: for the thread at
`threadIdx = (1,1)` every sample of its own 3x3 neighbourhood has luminance 1,
and `sort9` correctly leaves a luma-1 pair (with stored index 4) at position
4; but the candidate the code fetches is `sharedBuffer[4]` — the top-halo
outlier of luminance 1000 — and not the median-ranked neighbour the stored
index refers to. -/

theorem MedianFilter_median_index_bug :
    (∀ k, k < 9 → (neighborSample tileCE 1 1 k).color = ⟨1, 1, 1⟩) ∧
    (sort9 (medianPairs (fun c => c.x) tileCE 1 1)).v4.luma = 1 ∧
    (medianCandidate (fun c => c.x) tileCE 1 1).color = ⟨1000, 1000, 1000⟩ ∧
    medianCandidate (fun c => c.x) tileCE 1 1 ≠
      neighborSample tileCE 1 1 ((sort9 (medianPairs (fun c => c.x) tileCE 1 1)).v4.idx) := by
  decide

/-- Claim C5 as stated is false: at weight 1 (all similarity factors equal),
with original color 0 and median color 1, the final color is the median
itself, which is not expressible as `original + t * (median - original)` with
`t ≤ 1/2`. -/

theorem MedianFilter_blend_not_half_cap :
    ¬ ∃ t : ℚ, t ≤ 1/2 ∧
      medianBlend ⟨0, 0, 0⟩ ⟨1, 1, 1⟩ 1 = lerp3f ⟨0, 0, 0⟩ ⟨1, 1, 1⟩ t := by
  rintro ⟨t, ht, heq⟩
  have hx : (medianBlend ⟨0, 0, 0⟩ ⟨1, 1, 1⟩ 1).x = (lerp3f ⟨0, 0, 0⟩ ⟨1, 1, 1⟩ t).x := by
    rw [heq]
  simp [medianBlend, lerp3f] at hx
  linarith

/-- Claim C5 (amended): the final blend equals a single lerp from the original
towards the median with coefficient `1/2 + weight/2`; for a weight in `[0,1]`
that coefficient lies in `[1/2, 1]` — the output is pulled at least 50%
(up to 100%) of the way towards the median, retaining at most 50% of the
original, rather than deviating by at most 50%. -/

theorem MedianFilter_blend_coefficient (colorValue medianColor : Float3) (weight : ℚ)
    (h0 : 0 ≤ weight) (h1 : weight ≤ 1) :
    medianBlend colorValue medianColor weight =
      lerp3f colorValue medianColor (1/2 + weight/2) ∧
    1/2 ≤ 1/2 + weight/2 ∧ 1/2 + weight/2 ≤ 1 := by
  refine ⟨?_, by linarith, by linarith⟩
  simp only [medianBlend, lerp3f]
  rw [Vec3.mk.injEq]
  refine ⟨by ring, by ring, by ring⟩

/-- Witness for the amended C5 theorem at original 0, median 1, weight 1. -/

theorem MedianFilter_blend_coefficient_witness :
    medianBlend ⟨0, 0, 0⟩ ⟨1, 1, 1⟩ 1 = lerp3f ⟨0, 0, 0⟩ ⟨1, 1, 1⟩ (1/2 + 1/2) ∧
    1/2 ≤ (1 : ℚ)/2 + 1/2 ∧ (1 : ℚ)/2 + 1/2 ≤ 1 :=
  MedianFilter_blend_coefficient ⟨0, 0, 0⟩ ⟨1, 1, 1⟩ 1 (by norm_num) (by norm_num)

/-- One-step unfolding of `aeLoop1`. -/

theorem aeLoop1_succ (h : ℕ → ℕ) (a : ℝ) (fuel i : ℕ) (s : AEState) :
    aeLoop1 h a (fuel + 1) i s =
      if 0 < s.accuHistArea + (h i : ℝ) / a - darkThreshold then
        (⟨s.lumiSum + (s.accuHistArea + (h i : ℝ) / a - darkThreshold) * BinToLum i,
          s.lumiSumArea + (s.accuHistArea + (h i : ℝ) / a - darkThreshold),
          s.accuHistArea + (h i : ℝ) / a⟩, some i)
      else aeLoop1 h a fuel (i + 1) ⟨s.lumiSum, s.lumiSumArea,
        s.accuHistArea + (h i : ℝ) / a⟩ := rfl

/-- One-step unfolding of `aeLoop2`. -/

theorem aeLoop2_succ (h : ℕ → ℕ) (a : ℝ) (fuel i : ℕ) (s : AEState) :
    aeLoop2 h a (fuel + 1) i s =
      if 0 < s.accuHistArea + (h i : ℝ) / a - brightThreshold then
        (⟨s.lumiSum + (brightThreshold - (s.accuHistArea + (h i : ℝ) / a - (h i : ℝ) / a)) *
            BinToLum i,
          s.lumiSumArea + (brightThreshold - (s.accuHistArea + (h i : ℝ) / a - (h i : ℝ) / a)),
          s.accuHistArea + (h i : ℝ) / a⟩, some (BinToLum i))
      else aeLoop2 h a fuel (i + 1) ⟨s.lumiSum + (h i : ℝ) / a * BinToLum i,
        s.lumiSumArea + (h i : ℝ) / a, s.accuHistArea + (h i : ℝ) / a⟩ := rfl

/-- Through `aeLoop1`, the accepted mass stays untouched until the break,
where it receives exactly the cumulative mass in excess of the dark
threshold: on a break, `lumiSumArea` grew by `accuHistArea - darkThreshold`
relative to the final cumulative mass. -/

theorem aeLoop1_break_invariant (h : ℕ → ℕ) (a : ℝ) :
    ∀ fuel i s s' d, aeLoop1 h a fuel i s = (s', some d) →
      s'.lumiSumArea = s.lumiSumArea + (s'.accuHistArea - darkThreshold) := by
  intro fuel
  induction fuel with
  | zero =>
    intro i s s' d hrun
    simp [aeLoop1] at hrun
  | succ fuel ih =>
    intro i s s' d hrun
    rw [aeLoop1_succ] at hrun
    split at hrun
    · obtain ⟨h1, h2⟩ := Prod.mk.injEq .. ▸ hrun
      rw [← h1]
    · exact (ih _ _ _ _ hrun).trans (by ring)

/-- Through `aeLoop2`, a break leaves the accepted mass grown by exactly
`brightThreshold` minus the cumulative mass at entry: accepted full buckets
and the final fractional bucket telescope. -/

theorem aeLoop2_break_invariant (h : ℕ → ℕ) (a : ℝ) :
    ∀ fuel i s s' bl, aeLoop2 h a fuel i s = (s', some bl) →
      s'.lumiSumArea = s.lumiSumArea + (brightThreshold - s.accuHistArea) := by
  intro fuel
  induction fuel with
  | zero =>
    intro i s s' bl hrun
    simp [aeLoop2] at hrun
  | succ fuel ih =>
    intro i s s' bl hrun
    rw [aeLoop2_succ] at hrun
    split at hrun
    · obtain ⟨h1, h2⟩ := Prod.mk.injEq .. ▸ hrun
      rw [← h1]
      ring
    · exact (ih _ _ _ _ hrun).trans (by ring)

/-- Claim C3: whenever the first scan crosses the dark threshold (0.4) and the
second scan crosses the bright threshold (0.9), the total accepted mass
`lumiSumArea` — the denominator of the average luminance — is exactly
`0.9 - 0.4 = 1/2`, despite the crossing bucket being re-read at the start of
the second scan. -/

theorem AutoExposure_mass_conservation (histogram : ℕ → ℕ) (area : ℝ) (d : ℕ) (bl : ℝ)
    (hdark : (aeScan histogram area).2.1 = some d)
    (hbright : (aeScan histogram area).2.2 = some bl) :
    (aeScan histogram area).1.lumiSumArea = 1/2 := by
  rcases hr1 : aeLoop1 histogram area 64 0 ⟨0, 0, 0⟩ with ⟨s1, o1⟩
  rcases o1 with _ | i
  · simp only [aeScan, hr1] at hdark
    exact absurd hdark (by simp)
  · rcases hr2 : aeLoop2 histogram area (64 - i) i s1 with ⟨s2, o2⟩
    rcases o2 with _ | l
    · simp only [aeScan, hr1, hr2] at hbright
      exact absurd hbright (by simp)
    · have e1 := aeLoop1_break_invariant histogram area 64 0 ⟨0, 0, 0⟩ s1 i hr1
      have e2 := aeLoop2_break_invariant histogram area (64 - i) i s1 s2 l hr2
      have hgoal : (aeScan histogram area).1.lumiSumArea = s2.lumiSumArea := by
        simp only [aeScan, hr1, hr2]
      rw [hgoal, e2, e1]
      simp only [darkThreshold, brightThreshold]
      norm_num

theorem aeLoop1_histAllDark :
    aeLoop1 histAllDark 1 64 0 ⟨0, 0, 0⟩ = (⟨(3/5) * BinToLum 0, 3/5, 1⟩, some 0) := by
  rw [show (64 : ℕ) = 63 + 1 from rfl, aeLoop1_succ]
  rw [if_pos (by norm_num [histAllDark, darkThreshold])]
  norm_num [histAllDark, darkThreshold, Prod.mk.injEq, AEState.mk.injEq]

theorem aeLoop2_histAllDark :
    aeLoop2 histAllDark 1 64 0 ⟨(3/5) * BinToLum 0, 3/5, 1⟩ =
      (⟨(1/2) * BinToLum 0, 1/2, 2⟩, some (BinToLum 0)) := by
  rw [show (64 : ℕ) = 63 + 1 from rfl, aeLoop2_succ]
  rw [if_pos (by norm_num [histAllDark, brightThreshold])]
  norm_num [histAllDark, brightThreshold, Prod.mk.injEq, AEState.mk.injEq]
  ring_nf

/-- Evaluation of the full scan on the all-dark histogram: the dark cut is in
bucket 0, the bright luminance is `BinToLum 0`, and the accepted mass is
exactly 1/2. -/

theorem aeScan_histAllDark :
    aeScan histAllDark 1 = (⟨(1/2) * BinToLum 0, 1/2, 2⟩, some 0, some (BinToLum 0)) := by
  simp only [aeScan, aeLoop1_histAllDark, Nat.sub_zero]
  rw [aeLoop2_histAllDark]

/-- Witness for C3 at the all-dark histogram: both crossings happen and the
accepted mass is exactly 1/2. -/

theorem AutoExposure_mass_conservation_witness :
    (aeScan histAllDark 1).1.lumiSumArea = 1/2 :=
  AutoExposure_mass_conservation histAllDark 1 0 (BinToLum 0)
    (by rw [aeScan_histAllDark]) (by rw [aeScan_histAllDark])

/-- The clamp of anything into `[0.1, 10.0]` lies in `[0.1, 10.0]`. -/

theorem clampf_le_bounds (x : ℝ) : 0.1 ≤ clampf x 0.1 10.0 ∧ clampf x 0.1 10.0 ≤ 10.0 := by
  unfold clampf
  exact ⟨le_min (le_max_right _ _) (by norm_num), min_le_right _ _⟩

/-- For a non-negative delta-time the smoothing factor lies in `[0, 1)`, so
the eye-adaptation step stays between its previous and target values. -/

theorem eyeAdapt_between (prev target dt : ℝ) (hdt : 0 ≤ dt) :
    Min.min prev target ≤ eyeAdapt prev target dt ∧
    eyeAdapt prev target dt ≤ Max.max prev target := by
  have he1 : Real.exp (-dt * 0.001) ≤ 1 := by
    rw [Real.exp_le_one_iff]
    nlinarith
  have he2 : 0 < Real.exp (-dt * 0.001) := Real.exp_pos _
  unfold eyeAdapt
  rcases le_total prev target with hc | hc
  · rw [min_eq_left hc, max_eq_right hc]
    constructor <;> nlinarith
  · rw [min_eq_right hc, max_eq_left hc]
    constructor <;> nlinarith

/-- Claim C9: for every delta-time >= 0 and every pair of previous smoothed
and instantaneous luminance, the eye-adaptation step of `AutoExposure` lands
in the closed interval between the previous and the instantaneous value — it
moves toward the target without overshooting (applies to both the average and
the bright luminance, which use this same step). -/

theorem AutoExposure_eyeAdapt_no_overshoot (prev target deltaTime : ℝ)
    (hdt : 0 ≤ deltaTime) :
    Min.min prev target ≤ eyeAdapt prev target deltaTime ∧
    eyeAdapt prev target deltaTime ≤ Max.max prev target :=
  eyeAdapt_between prev target deltaTime hdt

/-- Witness for C9 at previous luminance 1, target 2, delta-time 0. -/

theorem AutoExposure_eyeAdapt_no_overshoot_witness :
    Min.min (1 : ℝ) 2 ≤ eyeAdapt 1 2 0 ∧ eyeAdapt 1 2 0 ≤ Max.max (1 : ℝ) 2 :=
  AutoExposure_eyeAdapt_no_overshoot 1 2 0 le_rfl

/-- Claim C2 (amended): the persisted average luminance `exposure[1]` stays in
`[0.1, 10.0]` for every histogram and every non-negative delta-time, provided
the previous average was in range (as it is from init on); the clamp applies
only to the average — the bright luminance is not clamped. -/

theorem AutoExposure_avgLum_clamped (histogram : ℕ → ℕ) (area deltaTime : ℝ)
    (prev : ExposureState) (hdt : 0 ≤ deltaTime)
    (hp1 : 0.1 ≤ prev.lum) (hp2 : prev.lum ≤ 10.0) :
    0.1 ≤ (AutoExposure histogram area deltaTime prev).lum ∧
    (AutoExposure histogram area deltaTime prev).lum ≤ 10.0 := by
  have heq : (AutoExposure histogram area deltaTime prev).lum =
      eyeAdapt prev.lum (clampf ((aeScan histogram area).1.lumiSum /
        (aeScan histogram area).1.lumiSumArea) 0.1 10.0) deltaTime := rfl
  rw [heq]
  have hc := clampf_le_bounds ((aeScan histogram area).1.lumiSum /
    (aeScan histogram area).1.lumiSumArea)
  have hb := eyeAdapt_between prev.lum (clampf ((aeScan histogram area).1.lumiSum /
    (aeScan histogram area).1.lumiSumArea) 0.1 10.0) deltaTime hdt
  exact ⟨le_trans (le_min hp1 hc.1) hb.1, le_trans hb.2 (max_le hp2 hc.2)⟩

/-- Witness for the amended C2 theorem at the all-dark histogram, delta-time 0
and the initial exposure state of init.cu. -/

theorem AutoExposure_avgLum_clamped_witness :
    0.1 ≤ (AutoExposure histAllDark 1 0 ⟨0, 1, 1⟩).lum ∧
    (AutoExposure histAllDark 1 0 ⟨0, 1, 1⟩).lum ≤ 10.0 :=
  AutoExposure_avgLum_clamped histAllDark 1 0 ⟨0, 1, 1⟩ le_rfl (by norm_num) (by norm_num)

/-- Claim C2 as stated is false for the bright luminance: the all-dark
histogram crosses the bright threshold in bucket 0, so the instantaneous
bright luminance is `BinToLum 0 = 2^(-7.5) < 0.1`, and it is never clamped;
after one update with delta-time `1000 ln 100 >= 0` (smoothing factor
`1 - 1/100`), the persisted `exposure[2]` has left `[0.1, 10.0]`. -/

theorem AutoExposure_brightLum_below_range :
    0 ≤ 1000 * Real.log 100 ∧
    (AutoExposure histAllDark 1 (1000 * Real.log 100) ⟨0, 1, 1⟩).lumBright < 0.1 := by
  constructor
  · have h := Real.log_nonneg (by norm_num : (1:ℝ) ≤ 100)
    linarith
  · have heq : (AutoExposure histAllDark 1 (1000 * Real.log 100) ⟨0, 1, 1⟩).lumBright =
        eyeAdapt 1 ((aeScan histAllDark 1).2.2.getD 0) (1000 * Real.log 100) := rfl
    rw [heq, aeScan_histAllDark]
    simp only [Option.getD_some]
    unfold eyeAdapt
    rw [show -(1000 * Real.log 100) * 0.001 = -Real.log 100 by ring,
      Real.exp_neg, Real.exp_log (by norm_num : (0:ℝ) < 100)]
    have hbv : BinToLum 0 = (2:ℝ) ^ (-(7.5:ℝ)) := by
      unfold BinToLum
      congr 1
      norm_num
    have hb16 : BinToLum 0 ≤ 1/16 := by
      rw [hbv]
      have h1 : (2:ℝ) ^ (-(7.5:ℝ)) ≤ (2:ℝ) ^ (-(4:ℝ)) :=
        (Real.rpow_le_rpow_left_iff (by norm_num : (1:ℝ) < 2)).mpr (by norm_num)
      have h2 : (2:ℝ) ^ (-(4:ℝ)) = 1/16 := by
        rw [Real.rpow_neg (by norm_num : (0:ℝ) ≤ 2),
          show ((4:ℝ)) = ((4:ℕ):ℝ) by norm_num, Real.rpow_natCast]
        norm_num
      linarith
    have hb0 : 0 < BinToLum 0 := by
      rw [hbv]
      exact Real.rpow_pos_of_pos (by norm_num) _
    nlinarith

/-- Claim C7 (amended, positive part): every coordinate `Histogram2` reads is
inside the buffer — out-of-range threads are predicated out before access. -/

theorem Histogram2_reads_in_bounds (bdim bIdx tIdx : ℕ × ℕ) (size : Int2)
    (c : Int2) (hc : c ∈ Histogram2Reads bdim bIdx tIdx size) :
    inBounds c size := by
  simp only [Histogram2Reads] at hc
  split at hc
  · simp at hc
  · rename_i hguard
    push_neg at hguard
    simp only [List.mem_singleton] at hc
    subst hc
    exact ⟨Int.natCast_nonneg _, hguard.1, Int.natCast_nonneg _, hguard.2⟩

/-- Witness: the thread at block (0,0), thread (3,2) of an 8x8 block reads
exactly the in-bounds coordinate (3,2) of an 8x8 buffer. -/

theorem Histogram2_reads_in_bounds_witness :
    (⟨3, 2⟩ : Int2) ∈ Histogram2Reads (8, 8) (0, 0) (3, 2) ⟨8, 8⟩ ∧
    inBounds ⟨3, 2⟩ ⟨8, 8⟩ :=
  ⟨by decide, Histogram2_reads_in_bounds (8, 8) (0, 0) (3, 2) ⟨8, 8⟩ ⟨3, 2⟩ (by decide)⟩

/-- Claim C7 as stated is false: for a 12x12 input buffer (grid
`divRoundUp(12,8) = 2` blocks per axis), the `DownScale4` thread at block
(1,1), thread (7,7) reads coordinate (15,15), which is outside the buffer —
the kernel predicates nothing. -/

theorem DownScale4_reads_out_of_bounds :
    (⟨15, 15⟩ : Int2) ∈ DownScale4Reads (8, 8) (1, 1) (7, 7) ∧
    ¬ inBounds ⟨15, 15⟩ ⟨12, 12⟩ := by
  decide

/-- Claim C6 evaluated on the code: only `MedianFilter` separates its tile
stores from cross-thread tile reads by a barrier executed by all threads of
the block; `DownScale4` has no barrier at all, and `BloomGuassian`'s barrier
comes after a thread-dependent early return, so the margin threads' stores
are not separated from the interior threads' reads by a full barrier. -/

theorem tile_barrier_audit :
    syncSeparated MedianFilterTileOps = true ∧
    syncSeparated DownScale4TileOps = false ∧
    syncSeparated BloomGuassianTileOps = false := by
  decide

/-- Claim C10: the red, green and blue bytes are the clamped channel times
255 plus 0.5, truncated; the alpha byte is the constant 1 — not 255 — so the
presented RGBA image is never fully opaque, while every color byte still fits
in 0..255. -/

theorem CopyToOutput_alpha_is_one (c : Float3) :
    (CopyToOutputPixel c).2.2.2 = 1 ∧ (CopyToOutputPixel c).2.2.2 ≠ 255 ∧
    (CopyToOutputPixel c).1 = (Int.floor ((Min.min (Max.max c.x 0) 1) * 255 + 0.5)).toNat ∧
    (CopyToOutputPixel c).1 ≤ 255 := by
  refine ⟨rfl, ?_, rfl, ?_⟩
  · show (1 : ℕ) ≠ 255
    decide
  have h1 : Min.min (Max.max c.x 0) 1 ≤ 1 := min_le_right _ _
  have h2 : (CopyToOutputPixel c).1 =
      (Int.floor ((Min.min (Max.max c.x 0) 1) * 255 + (0.5 : ℚ))).toNat := rfl
  rw [h2]
  have h3 : Int.floor ((Min.min (Max.max c.x 0) 1) * 255 + (0.5 : ℚ)) ≤ 255 := by
    rw [Int.floor_le_iff]
    push_cast
    nlinarith
  exact Int.toNat_le.mpr h3

/-- Every flare element coefficient is non-negative. -/

theorem lfC_nonneg (p : Vec2 ℝ) (size dist : ℝ) (mouse : Vec2 ℝ) :
    0 ≤ lfC p size dist mouse :=
  mul_nonneg (le_max_right _ _) (by norm_num)

theorem lfC1_nonneg (p : Vec2 ℝ) (size dist : ℝ) (mouse : Vec2 ℝ) :
    0 ≤ lfC1 p size dist mouse :=
  mul_nonneg (le_max_right _ _) (by norm_num)

theorem lfC2_nonneg (p : Vec2 ℝ) (dist : ℝ) (mouse : Vec2 ℝ) :
    0 ≤ lfC2 p dist mouse :=
  div_nonneg (le_max_right _ _) (by norm_num)

theorem lfS_nonneg (p : Vec2 ℝ) (dist : ℝ) (mouse : Vec2 ℝ) :
    0 ≤ lfS p dist mouse :=
  mul_nonneg (le_max_right _ _) (by norm_num)

/-- The flare tint lies in `[0, 1]` per channel. -/

theorem lfColor_bounds (dist : ℝ) :
    (0 ≤ (lfColor dist).x ∧ (lfColor dist).x ≤ 1) ∧
    (0 ≤ (lfColor dist).y ∧ (lfColor dist).y ≤ 1) ∧
    (0 ≤ (lfColor dist).z ∧ (lfColor dist).z ≤ 1) := by
  simp only [lfColor, cos3f, Vec3.smul3, Vec3.adds3]
  refine ⟨⟨?_, ?_⟩, ⟨?_, ?_⟩, ⟨?_, ?_⟩⟩ <;>
    nlinarith [Real.neg_one_le_cos (0.44 * 8 + dist * 4),
      Real.cos_le_one (0.44 * 8 + dist * 4),
      Real.neg_one_le_cos (0.24 * 8 + dist * 4),
      Real.cos_le_one (0.24 * 8 + dist * 4),
      Real.neg_one_le_cos (0.2 * 8 + dist * 4),
      Real.cos_le_one (0.2 * 8 + dist * 4)]

/-- Each `LensFlareCircle` contribution is at least `-0.01` per channel: the
four elements are non-negative, only the final bias is negative. -/

theorem LensFlareCircle_channel_lower (p : Vec2 ℝ) (size dist : ℝ) (mouse : Vec2 ℝ) :
    -0.01 ≤ (LensFlareCircle p size dist mouse).x ∧
    -0.01 ≤ (LensFlareCircle p size dist mouse).y ∧
    -0.01 ≤ (LensFlareCircle p size dist mouse).z := by
  have hc := lfC_nonneg p size dist mouse
  have hc1 := lfC1_nonneg p size dist mouse
  have hc2 := lfC2_nonneg p dist mouse
  have hs := lfS_nonneg p dist mouse
  have hcol := lfColor_bounds dist
  simp only [LensFlareCircle, Vec3.smul3, Vec3.add3, Vec3.subs3]
  refine ⟨?_, ?_, ?_⟩
  · nlinarith [mul_nonneg hcol.1.1 hc, mul_nonneg hcol.1.1 hc1,
      mul_nonneg hcol.1.1 hc2, mul_nonneg hcol.1.1 hs]
  · nlinarith [mul_nonneg hcol.2.1.1 hc, mul_nonneg hcol.2.1.1 hc1,
      mul_nonneg hcol.2.1.1 hc2, mul_nonneg hcol.2.1.1 hs]
  · nlinarith [mul_nonneg hcol.2.2.1 hc, mul_nonneg hcol.2.2.1 hc1,
      mul_nonneg hcol.2.2.1 hc2, mul_nonneg hcol.2.2.1 hs]

/-- Subtracting the zero vector is the identity. -/
theorem Vec2_sub_zero (q : Vec2 ℝ) : Vec2.sub q ⟨0, 0⟩ = q := by
  simp [Vec2.sub]

/-- The first sun-glow term of line 544 is non-negative: it is a clamped
magnitude times an absolute value over a positive constant. -/
theorem lfGlow1_nonneg (len angle : ℝ) : 0 ≤ lfGlow1 len angle :=
  div_nonneg (mul_nonneg (le_max_right _ _) (abs_nonneg _)) (by norm_num)

/-- The second sun-glow term of line 545 is non-negative: both summands are
clamped or absolute values. -/
theorem lfGlow2_nonneg (len angle : ℝ) : 0 ≤ lfGlow2 len angle :=
  add_nonneg (le_max_right _ _)
    (mul_nonneg (div_nonneg (abs_nonneg _) (by norm_num)) (abs_nonneg _))

/-- Whenever the pixel-to-sun distance is at most `10^12` (which covers any
real viewport by many orders of magnitude) the two sun-glow terms together
contribute at least `0.02`.  Away from the sun the unconditional summand
`0.1 / (10 len)^(1/20)` of line 545 alone is at least `0.1 / 5`, because
`10 len <= 10^13 <= 5^20`; at the sun itself (`len = 0`, where the source's
`atan2f 0 0` yields angle `0`) the line 544 term is `(0.1/0.0001) |sin 1| / 20
= 50 sin 1 > 37`. -/
theorem lfGlow_sum_lower (len angle : ℝ) (h0 : 0 ≤ len) (hub : len ≤ 10 ^ 12)
    (hz : len = 0 → angle = 0) :
    0.02 ≤ lfGlow1 len angle + lfGlow2 len angle := by
  rcases h0.eq_or_lt with hl | hl
  · have hlen0 : len = 0 := hl.symm
    have ha : angle = 0 := hz hlen0
    subst hlen0
    subst ha
    have hg2 := lfGlow2_nonneg 0 0
    have hg1 : lfGlow1 0 0 = 1000 * |Real.sin 1| / 20 := by
      unfold lfGlow1
      rw [zero_mul, Real.zero_rpow (by norm_num : (5 : ℝ) ≠ 0)]
      norm_num [Real.cos_zero]
    have hs1 : (3 / 4 : ℝ) < Real.sin 1 := by
      have h := Real.sin_gt_sub_cube (by norm_num : (0 : ℝ) < 1) (le_refl 1)
      norm_num at h
      linarith
    have habs : |Real.sin 1| = Real.sin 1 := abs_of_pos (by linarith)
    rw [hg1, habs]
    linarith
  · have h10 : (0 : ℝ) < len * 10 := by linarith
    have hX : 0 < (len * 10) ^ ((1 : ℝ) / 20) := Real.rpow_pos_of_pos h10 _
    have hub13 : len * 10 ≤ (5 : ℝ) ^ (20 : ℕ) := by
      have h5 : ((5 : ℝ)) ^ (20 : ℕ) = 95367431640625 := by norm_num
      have h12 : (10 : ℝ) ^ 12 = 1000000000000 := by norm_num
      rw [h5]
      rw [h12] at hub
      linarith
    have hle5 : (len * 10) ^ ((1 : ℝ) / 20) ≤ 5 := by
      have h1 : (len * 10) ^ ((1 : ℝ) / 20) ≤ ((5 : ℝ) ^ (20 : ℕ)) ^ ((1 : ℝ) / 20) :=
        Real.rpow_le_rpow (le_of_lt h10) hub13 (by norm_num)
      have h2 : ((5 : ℝ) ^ (20 : ℕ)) ^ ((1 : ℝ) / 20) = 5 := by
        rw [← Real.rpow_natCast (5 : ℝ) 20, ← Real.rpow_mul (by norm_num : (0 : ℝ) ≤ 5)]
        norm_num
      linarith
    have hdiv : (0.02 : ℝ) ≤ 0.1 / (len * 10) ^ ((1 : ℝ) / 20) := by
      have h3 := div_le_div_of_nonneg_left (by norm_num : (0 : ℝ) ≤ 0.1) hX hle5
      norm_num at h3
      linarith
    have hg1 := lfGlow1_nonneg len angle
    have hg2 : (0.02 : ℝ) ≤ lfGlow2 len angle := by
      unfold lfGlow2
      have hmax : 0.1 / (len * 10) ^ ((1 : ℝ) / 20) ≤
          Max.max (0.1 / (len * 10) ^ ((1 : ℝ) / 20)) 0 := le_max_left _ _
      have habs : 0 ≤ |Real.sin (angle * 3 + Real.cos (angle * 9))| / 16 *
          |Real.sin (angle * 9)| :=
        mul_nonneg (div_nonneg (abs_nonneg _) (by norm_num)) (abs_nonneg _)
      linarith
    linarith

/-- Claim C8: at every pixel whose centered-uv distance to the sun position
is at most `10^12` — which any pixel reachable through the kernel's uv
mapping satisfies by many orders of magnitude — the `LensFlare` pass only
adds energy: the written color is at least the read color on every channel,
and every composited flare element (the circle, ring, dot and hexagon
coefficients of both `LensFlareCircle` calls, and the two sun-glow terms)
is individually non-negative.  The unconditional line 545 glow term alone
contributes at least `0.02`, which absorbs the two `-0.01` biases of the
circles. -/
theorem LensFlare_additive (sunPos uv : Vec2 ℝ) (inColor : Vec3 ℝ)
    (hlen : (uv.sub sunPos).length ≤ 10 ^ 12) :
    (inColor.x ≤ (LensFlarePixel sunPos uv inColor).x ∧
     inColor.y ≤ (LensFlarePixel sunPos uv inColor).y ∧
     inColor.z ≤ (LensFlarePixel sunPos uv inColor).z) ∧
    (0 ≤ lfC uv ((LensFlareRand (0 * 2000) * 1.8) ^ (2 : ℝ) + 1.41)
        (LensFlareRand (0 * 20) * 3 + 0.2 - 0.5) sunPos ∧
     0 ≤ lfC1 uv ((LensFlareRand (0 * 2000) * 1.8) ^ (2 : ℝ) + 1.41)
        (LensFlareRand (0 * 20) * 3 + 0.2 - 0.5) sunPos ∧
     0 ≤ lfC2 uv (LensFlareRand (0 * 20) * 3 + 0.2 - 0.5) sunPos ∧
     0 ≤ lfS uv (LensFlareRand (0 * 20) * 3 + 0.2 - 0.5) sunPos) ∧
    (0 ≤ lfC uv ((LensFlareRand (1 * 2000) * 1.8) ^ (2 : ℝ) + 1.41)
        (LensFlareRand (1 * 20) * 3 + 0.2 - 0.5) sunPos ∧
     0 ≤ lfC1 uv ((LensFlareRand (1 * 2000) * 1.8) ^ (2 : ℝ) + 1.41)
        (LensFlareRand (1 * 20) * 3 + 0.2 - 0.5) sunPos ∧
     0 ≤ lfC2 uv (LensFlareRand (1 * 20) * 3 + 0.2 - 0.5) sunPos ∧
     0 ≤ lfS uv (LensFlareRand (1 * 20) * 3 + 0.2 - 0.5) sunPos) ∧
    (0 ≤ lfGlow1 (uv.sub sunPos).length
        (atan2f (uv.sub sunPos).y (uv.sub sunPos).x) ∧
     0 ≤ lfGlow2 (uv.sub sunPos).length
        (atan2f (uv.sub sunPos).y (uv.sub sunPos).x)) := by
  have h0c := LensFlareCircle_channel_lower uv
    ((LensFlareRand (0 * 2000) * 1.8) ^ (2 : ℝ) + 1.41)
    (LensFlareRand (0 * 20) * 3 + 0.2 - 0.5) sunPos
  have h1c := LensFlareCircle_channel_lower uv
    ((LensFlareRand (1 * 2000) * 1.8) ^ (2 : ℝ) + 1.41)
    (LensFlareRand (1 * 20) * 3 + 0.2 - 0.5) sunPos
  have hnn : 0 ≤ (uv.sub sunPos).length := by
    unfold Vec2.length
    exact Real.sqrt_nonneg _
  have hz : (uv.sub sunPos).length = 0 →
      atan2f (uv.sub sunPos).y (uv.sub sunPos).x = 0 := by
    intro hl
    unfold Vec2.length at hl
    have hsum : (uv.sub sunPos).x ^ 2 + (uv.sub sunPos).y ^ 2 = 0 :=
      (Real.sqrt_eq_zero (by positivity)).mp hl
    have hx2 : (uv.sub sunPos).x ^ 2 = 0 :=
      le_antisymm (by nlinarith [sq_nonneg (uv.sub sunPos).y]) (sq_nonneg _)
    have hy2 : (uv.sub sunPos).y ^ 2 = 0 :=
      le_antisymm (by nlinarith [sq_nonneg (uv.sub sunPos).x]) (sq_nonneg _)
    have hx : (uv.sub sunPos).x = 0 := (pow_eq_zero_iff (by norm_num : (2 : ℕ) ≠ 0)).mp hx2
    have hy : (uv.sub sunPos).y = 0 := (pow_eq_zero_iff (by norm_num : (2 : ℕ) ≠ 0)).mp hy2
    rw [hx, hy]
    unfold atan2f
    norm_num
  have hkey := lfGlow_sum_lower ((uv.sub sunPos).length)
    (atan2f (uv.sub sunPos).y (uv.sub sunPos).x) hnn hlen hz
  refine ⟨?_,
    ⟨lfC_nonneg _ _ _ _, lfC1_nonneg _ _ _ _, lfC2_nonneg _ _ _, lfS_nonneg _ _ _⟩,
    ⟨lfC_nonneg _ _ _ _, lfC1_nonneg _ _ _ _, lfC2_nonneg _ _ _, lfS_nonneg _ _ _⟩,
    lfGlow1_nonneg _ _, lfGlow2_nonneg _ _⟩
  simp only [LensFlarePixel, Vec3.add3, Vec3.adds3]
  exact ⟨by linarith [h0c.1, h1c.1], by linarith [h0c.2.1, h1c.2.1],
    by linarith [h0c.2.2, h1c.2.2]⟩

/-- Witness for C8: with the sun at `(0, 0)`, the pixel at centered uv
`(0.3, 0.2)` and a black input color, the written red channel is at least
the read one. -/
theorem LensFlare_additive_witness :
    (⟨0, 0, 0⟩ : Vec3 ℝ).x ≤ (LensFlarePixel ⟨0, 0⟩ ⟨0.3, 0.2⟩ ⟨0, 0, 0⟩).x :=
  (LensFlare_additive ⟨0, 0⟩ ⟨0.3, 0.2⟩ ⟨0, 0, 0⟩ (by
    rw [Vec2_sub_zero]
    show Real.sqrt ((0.3 : ℝ) ^ 2 + (0.2 : ℝ) ^ 2) ≤ 10 ^ 12
    have h1 : Real.sqrt ((0.3 : ℝ) ^ 2 + (0.2 : ℝ) ^ 2) ≤ Real.sqrt 1 :=
      Real.sqrt_le_sqrt (by norm_num)
    rw [Real.sqrt_one] at h1
    have h2 : (1 : ℝ) ≤ 10 ^ 12 := by norm_num
    linarith)).1.1
